import Mathlib

/-!
Verification of the rmesg kernel-log reader: entry codec for the two kernel
log dialects (kmsg and klog), and the CLI collaborator's argument parsing and
error reporting. The codec definitions are modelled from the specification
(the codec module itself ships in the library crate, outside this tree); the
CLI definitions are translated from `src/main.rs`.
-/

namespace Rmesg

/-- Modelled from the spec: the fixed syslog facility categories
(kernel, user, mail, daemon, auth, syslog, ..., local0-local7), 24 values. -/
inductive LogFacility where
  | Kern | User | Mail | Daemon | Auth | Syslog | Lpr | News
  | UUCP | Cron | AuthPriv | FTP | NTP | Security | Console | SolarisCron
  | Local0 | Local1 | Local2 | Local3 | Local4 | Local5 | Local6 | Local7
deriving DecidableEq

/-- Modelled from the spec: the fixed severity levels (emergency ... debug), 8 values. -/
inductive LogLevel where
  | Emergency | Alert | Critical | Error | Warning | Notice | Info | Debug
deriving DecidableEq

/-- Numeric code of a facility (0-23). -/
def LogFacility.toNat : LogFacility → Nat
  | .Kern => 0 | .User => 1 | .Mail => 2 | .Daemon => 3
  | .Auth => 4 | .Syslog => 5 | .Lpr => 6 | .News => 7
  | .UUCP => 8 | .Cron => 9 | .AuthPriv => 10 | .FTP => 11
  | .NTP => 12 | .Security => 13 | .Console => 14 | .SolarisCron => 15
  | .Local0 => 16 | .Local1 => 17 | .Local2 => 18 | .Local3 => 19
  | .Local4 => 20 | .Local5 => 21 | .Local6 => 22 | .Local7 => 23

/-- Facility from its numeric code; codes above 23 have no facility. -/
def LogFacility.fromNat : Nat → Option LogFacility
  | 0 => some .Kern | 1 => some .User | 2 => some .Mail | 3 => some .Daemon
  | 4 => some .Auth | 5 => some .Syslog | 6 => some .Lpr | 7 => some .News
  | 8 => some .UUCP | 9 => some .Cron | 10 => some .AuthPriv | 11 => some .FTP
  | 12 => some .NTP | 13 => some .Security | 14 => some .Console | 15 => some .SolarisCron
  | 16 => some .Local0 | 17 => some .Local1 | 18 => some .Local2 | 19 => some .Local3
  | 20 => some .Local4 | 21 => some .Local5 | 22 => some .Local6 | 23 => some .Local7
  | _ + 24 => none

/-- Numeric code of a severity level (0-7). -/
def LogLevel.toNat : LogLevel → Nat
  | .Emergency => 0 | .Alert => 1 | .Critical => 2 | .Error => 3
  | .Warning => 4 | .Notice => 5 | .Info => 6 | .Debug => 7

/-- Level from its numeric code; codes above 7 have no level. -/
def LogLevel.fromNat : Nat → Option LogLevel
  | 0 => some .Emergency | 1 => some .Alert | 2 => some .Critical | 3 => some .Error
  | 4 => some .Warning | 5 => some .Notice | 6 => some .Info | 7 => some .Debug
  | _ + 8 => none

/-- Modelled from the spec: one parsed log record. The timestamp is kept as
microseconds since boot, the unit carried by the structured kmsg dialect. -/
structure Entry where
  timestamp_from_system_start : Option Nat
  facility : Option LogFacility
  level : Option LogLevel
  sequence_num : Option Nat
  message : String
deriving DecidableEq

/-- Modelled from the spec: error kinds of the library crate. -/
inductive RMesgError where
  | operationNotPermitted (msg : String)
  | backendUnavailable (msg : String)
  | malformedRecord (line : String)
  | ioFailure (msg : String)
deriving DecidableEq

/-- Modelled from the spec: decode a packed priority value,
`facility = priority >> 3`, `level = priority & 7`; a priority whose
facility part exceeds 23 has no decoding. -/
def decode_priority (p : Nat) : Option (LogFacility × LogLevel) :=
  match LogFacility.fromNat (p >>> 3), LogLevel.fromNat (p &&& 7) with
  | some f, some l => some (f, l)
  | _, _ => none

/-- The packed priority of an entry, defined when facility and level are both present. -/
def Entry.to_faclev (e : Entry) : Option Nat :=
  match e.facility, e.level with
  | some f, some l => some (f.toNat * 8 + l.toNat)
  | _, _ => none

/-! ### Decimal digit strings -/

/-- Value of a decimal digit character. -/
def digitVal (c : Char) : Nat := c.toNat - 48

/-- Value of a list of decimal digit characters, most significant first. -/
def valDigits (cs : List Char) : Nat :=
  cs.foldl (fun a c => a * 10 + digitVal c) 0

/-- Decimal rendering of a natural number as a character list. -/
def natChars (n : Nat) : List Char :=
  if n = 0 then ['0'] else (Nat.digits 10 n).reverse.map Nat.digitChar

/-- Parse a natural number: nonempty, all decimal digits. -/
def parseNat (cs : List Char) : Option Nat :=
  match cs with
  | [] => none
  | _ :: _ => if cs.all Char.isDigit then some (valDigits cs) else none

theorem digitChar_isDigit {d : Nat} (h : d < 10) : (Nat.digitChar d).isDigit = true := by
  interval_cases d <;> decide

theorem digitVal_digitChar {d : Nat} (h : d < 10) : digitVal (Nat.digitChar d) = d := by
  interval_cases d <;> decide

theorem natChars_ne_nil (n : Nat) : natChars n ≠ [] := by
  unfold natChars
  split
  · simp
  · next h =>
    simp only [ne_eq, List.map_eq_nil_iff, List.reverse_eq_nil_iff]
    exact Nat.digits_ne_nil_iff_ne_zero.mpr h

theorem natChars_all_digits {c : Char} {n : Nat} (h : c ∈ natChars n) : c.isDigit = true := by
  unfold natChars at h
  by_cases hn : n = 0
  · simp only [hn, if_true, List.mem_singleton] at h
    subst h
    decide
  · simp only [hn, if_false, List.mem_map, List.mem_reverse] at h
    obtain ⟨d, hd, rfl⟩ := h
    exact digitChar_isDigit (Nat.digits_lt_base (by norm_num) hd)

theorem valDigits_append (xs ys : List Char) :
    valDigits (xs ++ ys) = ys.foldl (fun a c => a * 10 + digitVal c) (valDigits xs) := by
  unfold valDigits
  rw [List.foldl_append]

theorem valDigits_map_digitChar (ds : List Nat) (h : ∀ d ∈ ds, d < 10) :
    valDigits (ds.reverse.map Nat.digitChar) = Nat.ofDigits 10 ds := by
  induction ds with
  | nil => rfl
  | cons d tl ih =>
    have hd : d < 10 := h d (by simp)
    have htl : ∀ x ∈ tl, x < 10 := fun x hx => h x (by simp [hx])
    simp only [List.reverse_cons, List.map_append, List.map_cons, List.map_nil]
    rw [valDigits_append, ih htl]
    simp only [List.foldl_cons, List.foldl_nil, Nat.ofDigits_cons]
    rw [digitVal_digitChar hd]
    omega

theorem valDigits_natChars (n : Nat) : valDigits (natChars n) = n := by
  unfold natChars
  split
  · next h => subst h; rfl
  · rw [valDigits_map_digitChar _ (fun d hd => Nat.digits_lt_base (by norm_num) hd)]
    exact Nat.ofDigits_digits 10 n

theorem parseNat_natChars (n : Nat) : parseNat (natChars n) = some n := by
  have hne := natChars_ne_nil n
  have hall : (natChars n).all Char.isDigit = true :=
    List.all_eq_true.mpr (fun c hc => natChars_all_digits hc)
  unfold parseNat
  match hcs : natChars n with
  | [] => exact absurd hcs hne
  | c :: cs =>
    rw [hcs] at hall
    simp only [hall, if_true]
    rw [← hcs, valDigits_natChars]

/-! ### Splitting raw lines -/

/-- Split a character list at the first occurrence of `c`, dropping it. -/
def splitFirst (c : Char) : List Char → Option (List Char × List Char)
  | [] => none
  | x :: xs =>
    if x = c then some ([], xs)
    else
      match splitFirst c xs with
      | none => none
      | some (a, b) => some (x :: a, b)

theorem splitFirst_eq_none {c : Char} {l : List Char} (h : c ∉ l) :
    splitFirst c l = none := by
  induction l with
  | nil => rfl
  | cons x xs ih =>
    have hx : ¬ x = c := fun hxc => h (by simp [hxc])
    have hxs : c ∉ xs := fun hm => h (by simp [hm])
    simp only [splitFirst, hx, if_false, ih hxs]

theorem splitFirst_append {c : Char} {l : List Char} (r : List Char) (h : c ∉ l) :
    splitFirst c (l ++ c :: r) = some (l, r) := by
  induction l with
  | nil => simp [splitFirst]
  | cons x xs ih =>
    have hx : ¬ x = c := fun hxc => h (by simp [hxc])
    have hxs : c ∉ xs := fun hm => h (by simp [hm])
    simp only [List.cons_append, splitFirst, hx, if_false, List.append_eq, ih hxs]

/-! ### kmsg dialect codec -/

/-- Modelled from the spec: parse one kmsg record,
`priority,sequence,timestamp_microseconds,flag;message`. A missing `;`
separator, a missing or non-numeric header field, or an undecodable
priority fails with a malformed-record error; on success every optional
field of the entry is populated. -/
def parse_kmsg (line : String) : Except RMesgError Entry :=
  match splitFirst ';' line.data with
  | none => .error (.malformedRecord line)
  | some (header, msgChars) =>
    match splitFirst ',' header with
    | none => .error (.malformedRecord line)
    | some (prioChars, r1) =>
      match splitFirst ',' r1 with
      | none => .error (.malformedRecord line)
      | some (seqChars, r2) =>
        match splitFirst ',' r2 with
        | none => .error (.malformedRecord line)
        | some (tsChars, _flagChars) =>
          match parseNat prioChars, parseNat seqChars, parseNat tsChars with
          | some prio, some seq, some ts =>
            match decode_priority prio with
            | some (f, l) =>
              .ok { timestamp_from_system_start := some ts, facility := some f,
                    level := some l, sequence_num := some seq,
                    message := String.mk msgChars }
            | none => .error (.malformedRecord line)
          | _, _, _ => .error (.malformedRecord line)

/-- Modelled from the spec: serialize an entry into the kmsg textual form
`priority,sequence,timestamp_microseconds,flag;message` (absent numeric
fields default to 0, the flag field is written as `-`). -/
def to_kmsg_string (e : Entry) : String :=
  String.mk (natChars (e.to_faclev.getD 0) ++
    (',' :: (natChars (e.sequence_num.getD 0) ++
      (',' :: (natChars (e.timestamp_from_system_start.getD 0) ++
        (',' :: ('-' :: (';' :: e.message.data))))))))

/-- The fallible serializer of the library crate; string formatting cannot fail. -/
def Entry.to_kmsg_str (e : Entry) : Except RMesgError String :=
  .ok (to_kmsg_string e)

/-! ### Enumeration lemmas -/

theorem facility_fromNat_toNat (f : LogFacility) : LogFacility.fromNat f.toNat = some f := by
  cases f <;> rfl

theorem level_fromNat_toNat (l : LogLevel) : LogLevel.fromNat l.toNat = some l := by
  cases l <;> rfl

theorem facility_toNat_lt (f : LogFacility) : f.toNat < 24 := by
  cases f <;> decide

theorem level_toNat_lt (l : LogLevel) : l.toNat < 8 := by
  cases l <;> decide

theorem facility_fromNat_ge {n : Nat} (h : 24 ≤ n) : LogFacility.fromNat n = none := by
  match n, h with
  | n + 24, _ => rfl

theorem level_fromNat_ge {n : Nat} (h : 8 ≤ n) : LogLevel.fromNat n = none := by
  match n, h with
  | n + 8, _ => rfl

theorem facility_toNat_fromNat {n : Nat} {f : LogFacility}
    (h : LogFacility.fromNat n = some f) : f.toNat = n := by
  by_cases h24 : n < 24
  · interval_cases n <;> (cases Option.some.inj h; rfl)
  · rw [facility_fromNat_ge (by omega)] at h
    cases h

theorem level_toNat_fromNat {n : Nat} {l : LogLevel}
    (h : LogLevel.fromNat n = some l) : l.toNat = n := by
  by_cases h8 : n < 8
  · interval_cases n <;> (cases Option.some.inj h; rfl)
  · rw [level_fromNat_ge (by omega)] at h
    cases h

theorem and_seven (p : Nat) : p &&& 7 = p % 8 :=
  Nat.and_pow_two_sub_one_eq_mod p 3

theorem shiftRight_three (p : Nat) : p >>> 3 = p / 8 :=
  Nat.shiftRight_eq_div_pow p 3

theorem decode_priority_pack (f : LogFacility) (l : LogLevel) :
    decode_priority (f.toNat * 8 + l.toNat) = some (f, l) := by
  have hl := level_toNat_lt l
  have h1 : (f.toNat * 8 + l.toNat) >>> 3 = f.toNat := by
    rw [shiftRight_three]
    omega
  have h2 : (f.toNat * 8 + l.toNat) &&& 7 = l.toNat := by
    rw [and_seven]
    omega
  unfold decode_priority
  rw [h1, h2, facility_fromNat_toNat, level_fromNat_toNat]

/-! ### klog dialect codec -/

theorem takeWhile_append_all {p : Char → Bool} {l : List Char} {b : Char} (r : List Char)
    (hall : ∀ a ∈ l, p a = true) (hb : p b = false) :
    (l ++ b :: r).takeWhile p = l := by
  induction l with
  | nil => simp [List.takeWhile, hb]
  | cons x xs ih =>
    have hx : p x = true := hall x (by simp)
    have hxs : ∀ a ∈ xs, p a = true := fun a ha => hall a (by simp [ha])
    simp [List.takeWhile_cons, hx, ih hxs]

theorem dropWhile_append_all {p : Char → Bool} {l : List Char} {b : Char} (r : List Char)
    (hall : ∀ a ∈ l, p a = true) (hb : p b = false) :
    (l ++ b :: r).dropWhile p = b :: r := by
  induction l with
  | nil => simp [List.dropWhile, hb]
  | cons x xs ih =>
    have hx : p x = true := hall x (by simp)
    have hxs : ∀ a ∈ xs, p a = true := fun a ha => hall a (by simp [ha])
    simp [List.dropWhile_cons, hx, ih hxs]

/-- Fractional-second digits padded (or truncated) to microsecond precision. -/
def padTo6 (ds : List Char) : List Char :=
  ds.take 6 ++ List.replicate (6 - ds.length) '0'

/-- Value in microseconds of the digits following the decimal point. -/
def fracMicros (ds : List Char) : Nat :=
  valDigits (padTo6 ds)

/-- Microsecond remainder rendered as exactly six fractional digits. -/
def pad6 (m : Nat) : List Char :=
  List.replicate (6 - (natChars m).length) '0' ++ natChars m

/-- Textual seconds-since-boot of a microsecond count: `seconds.micros6`. -/
def secsChars (us : Nat) : List Char :=
  natChars (us / 1000000) ++ '.' :: pad6 (us % 1000000)

/-- Modelled from the spec: recognise a well-formed `<priority>` klog
decoration: `<`, one or more digits, `>`. -/
def takePriorityTag (cs : List Char) : Option (Nat × List Char) :=
  match cs with
  | c :: rest =>
    if c = '<' then
      match rest.takeWhile Char.isDigit, rest.dropWhile Char.isDigit with
      | d :: ds, g :: tail => if g = '>' then some (valDigits (d :: ds), tail) else none
      | _, _ => none
    else none
  | [] => none

/-- Modelled from the spec: recognise a well-formed `[timestamp]` klog
decoration: `[`, optional spaces, floating-point seconds since boot, `]`,
and at most one following separator space. Yields microseconds. -/
def takeTimestampTag (cs : List Char) : Option (Nat × List Char) :=
  match cs with
  | c :: rest =>
    if c = '[' then
      match (rest.dropWhile (fun x => x = ' ')).takeWhile Char.isDigit,
          (rest.dropWhile (fun x => x = ' ')).dropWhile Char.isDigit with
      | i :: ids, d :: r3 =>
        if d = '.' then
          match r3.takeWhile Char.isDigit, r3.dropWhile Char.isDigit with
          | g :: gs, b :: r5 =>
            if b = ']' then
              some (valDigits (i :: ids) * 1000000 + fracMicros (g :: gs),
                match r5 with
                | s :: t => if s = ' ' then t else s :: t
                | [] => [])
            else none
          | _, _ => none
        else none
      | _, _ => none
    else none
  | [] => none

/-- Shared tail of klog parsing: after the priority decoration, take an
optional timestamp decoration; the rest of the line is the message. -/
def klogRest (fl : Option (LogFacility × LogLevel)) (cs : List Char) : Entry :=
  match takeTimestampTag cs with
  | some (us, r) =>
    { timestamp_from_system_start := some us, facility := fl.map Prod.fst,
      level := fl.map Prod.snd, sequence_num := none, message := String.mk r }
  | none =>
    { timestamp_from_system_start := none, facility := fl.map Prod.fst,
      level := fl.map Prod.snd, sequence_num := none, message := String.mk cs }

/-- Modelled from the spec: best-effort parse of one klog line
`<priority>[timestamp] message`, both decorations optional. Absent or
malformed decoration never fails: the whole line (minus any well-formed
decoration) becomes the message and the matching fields stay absent.
Facility and level are decoded together from the packed priority. -/
def parse_klog (line : String) : Entry :=
  match takePriorityTag line.data with
  | some (p, r) =>
    match decode_priority p with
    | some fl => klogRest (some fl) r
    | none => klogRest none line.data
  | none => klogRest none line.data

/-- Modelled from the spec: serialize an entry into the klog textual form
`<priority>[timestamp] message`, omitting the decorations whose fields are
absent (the priority needs facility and level together). -/
def to_klog_string (e : Entry) : String :=
  String.mk
    ((match e.to_faclev with
      | some fl => '<' :: (natChars fl ++ ['>'])
      | none => []) ++
     (match e.timestamp_from_system_start with
      | some us => '[' :: (secsChars us ++ [']', ' '])
      | none => []) ++
     e.message.data)

/-- The fallible serializer of the library crate; string formatting cannot fail. -/
def Entry.to_klog_str (e : Entry) : Except RMesgError String :=
  .ok (to_klog_string e)

/-! ### CLI collaborator (src/main.rs) -/

/-- Backend selection exposed by the library crate. -/
inductive Backend where
  | Default
  | KLogCtl
  | DevKMsg
deriving DecidableEq

/-- Options parsed by the CLI front end (src/main.rs). -/
structure Options where
  follow : Bool
  clear : Bool
  raw : Bool
  backend : Backend
deriving DecidableEq

/-- Whether an error is the permission-denied kind matched by the CLI. -/
def RMesgError.isOperationNotPermitted : RMesgError → Bool
  | .operationNotPermitted _ => true
  | _ => false

/-- Modelled from the spec: textual rendering of an error (the Display
implementation lives in the library crate; its exact wording does not
matter to the CLI logic). -/
def fmtError : RMesgError → String
  | .operationNotPermitted m => "Operation not permitted: " ++ m
  | .backendUnavailable m => "Backend unavailable: " ++ m
  | .malformedRecord l => "Unable to parse line: " ++ l
  | .ioFailure m => "IO error: " ++ m

/-- Modelled from the spec: textual rendering of an entry (the Display
implementation lives in the library crate; its content does not matter
to the CLI logic). -/
def displayEntry (e : Entry) : String := to_klog_string e

/-- One line of CLI output, on standard output or standard error. -/
inductive CliLine where
  | out (s : String)
  | err (s : String)
deriving DecidableEq

/-- The elevation hint printed by src/main.rs on permission failures. -/
def hintLine : String :=
  "\nHint: Try using 'sudo' or run the program as root/superuser."

/-- Diagnostic output of one failed operation (src/main.rs): the error
message, plus the elevation hint exactly for OperationNotPermitted. -/
def errReport (ctx : String) (e : RMesgError) : List CliLine :=
  CliLine.err ("Unable to get " ++ ctx ++ ": " ++ fmtError e) ::
    (if e.isOperationNotPermitted then [CliLine.err hintLine] else [])

/-- The `nofollow` path of src/main.rs, over the outcome each core
operation would produce. -/
def nofollow (opts : Options) (rawRes : Except RMesgError String)
    (entriesRes : Except RMesgError (List Entry)) : List CliLine :=
  if opts.raw then
    match rawRes with
    | .ok raw => [CliLine.out raw]
    | .error e => errReport "raw logs" e
  else
    match entriesRes with
    | .ok entries => entries.map (fun en => CliLine.out (displayEntry en))
    | .error e => errReport "log entries" e

/-- The follow loop of src/main.rs: print each entry; on the first error
print the diagnostic (and hint when permission was denied) and stop. -/
def followRun : List (Except RMesgError Entry) → List CliLine
  | [] => []
  | .ok en :: rest => CliLine.out (displayEntry en) :: followRun rest
  | .error e :: _ => errReport "logs stream" e

/-- The whole output of one CLI invocation (src/main.rs), over the
outcomes the three core operations would produce. -/
def mainRun (opts : Options)
    (streamRes : Except RMesgError (List (Except RMesgError Entry)))
    (rawRes : Except RMesgError String)
    (entriesRes : Except RMesgError (List Entry)) : List CliLine :=
  if !opts.follow then nofollow opts rawRes entriesRes
  else
    match streamRes with
    | .ok items => followRun items
    | .error e => errReport "logs stream" e

/-- The error of a fallible outcome, if any. -/
def errorOf {α : Type} (r : Except RMesgError α) : Option RMesgError :=
  match r with
  | .error e => some e
  | .ok _ => none

/-- First error yielded by a followed stream, if any. -/
def firstFailure : List (Except RMesgError Entry) → Option RMesgError
  | [] => none
  | .ok _ :: rest => firstFailure rest
  | .error e :: _ => some e

/-- The error the invoked core operation fails with, if any: the CLI
invokes logs_stream when following, logs_raw when raw, log_entries
otherwise. -/
def encounteredError (opts : Options)
    (streamRes : Except RMesgError (List (Except RMesgError Entry)))
    (rawRes : Except RMesgError String)
    (entriesRes : Except RMesgError (List Entry)) : Option RMesgError :=
  if !opts.follow then
    if opts.raw then errorOf rawRes else errorOf entriesRes
  else
    match streamRes with
    | .ok items => firstFailure items
    | .error e => some e

/-! ### CLI argument parsing (src/main.rs) -/

/-- The values the CLI accepts for the -b option. -/
def backendValues : List String := ["klogctl", "devkmsg"]

/-- Accumulated command-line matches. -/
structure ArgMatches where
  follow : Bool
  clear : Bool
  raw : Bool
  backend : Option String
deriving DecidableEq

/-- Modelled from src/main.rs and its tests: scan the argument tokens.
`-f`, `-c` and `-r` set their flag; `-b` takes the next token as the
backend value, restricted to `backendValues`; anything else is refused. -/
def scanArgs (m : ArgMatches) : List String → Option ArgMatches
  | [] => some m
  | "-f" :: rest => scanArgs { m with follow := true } rest
  | "-c" :: rest => scanArgs { m with clear := true } rest
  | "-r" :: rest => scanArgs { m with raw := true } rest
  | "-b" :: v :: rest =>
    if v ∈ backendValues then scanArgs { m with backend := some v } rest else none
  | _ => none

/-- The backend match of src/main.rs lines 124-139: no -b value means the
default backend, "klogctl" and "devkmsg" select their backend, anything
else is unreachable (the CLI parser restricted the values). -/
def backendMap : Option String → Option Backend
  | none => some .Default
  | some "klogctl" => some .KLogCtl
  | some "devkmsg" => some .DevKMsg
  | some _ => none

/-- parse_args of src/main.rs over the argument tokens (the tokens after
the program name). -/
def parse_args (args : List String) : Option Options :=
  match scanArgs ⟨false, false, false, none⟩ args with
  | none => none
  | some m =>
    match backendMap m.backend with
    | none => none
    | some b => some ⟨m.follow, m.clear, m.raw, b⟩

/-! ### Evaluation lemmas for the kmsg codec -/

theorem not_mem_natChars {c : Char} {k : Nat} (hc : c.isDigit = false) : c ∉ natChars k :=
  fun hm => by rw [natChars_all_digits hm] at hc; cases hc

/-- A kmsg line assembled from raw header numbers, in serialized shape. -/
def mkKmsgLine (p n t : Nat) (msg : String) : String :=
  String.mk (natChars p ++ (',' :: (natChars n ++ (',' :: (natChars t ++
    (',' :: ('-' :: (';' :: msg.data))))))))

theorem parse_kmsg_mk (p n t : Nat) (msg : String) :
    parse_kmsg (mkKmsgLine p n t msg) =
      match decode_priority p with
      | some (f, l) => .ok ⟨some t, some f, some l, some n, msg⟩
      | none => .error (.malformedRecord (mkKmsgLine p n t msg)) := by
  have hA : ';' ∉ (natChars p ++ (',' :: (natChars n ++ (',' :: (natChars t ++ (',' :: ['-'])))))) := by
    intro hm
    rcases List.mem_append.mp hm with h | h
    · exact not_mem_natChars (by decide) h
    rcases List.mem_cons.mp h with h | h
    · exact absurd h (by decide)
    rcases List.mem_append.mp h with h | h
    · exact not_mem_natChars (by decide) h
    rcases List.mem_cons.mp h with h | h
    · exact absurd h (by decide)
    rcases List.mem_append.mp h with h | h
    · exact not_mem_natChars (by decide) h
    rcases List.mem_cons.mp h with h | h
    · exact absurd h (by decide)
    · exact absurd h (by decide)
  have hdata : (mkKmsgLine p n t msg).data =
      (natChars p ++ (',' :: (natChars n ++ (',' :: (natChars t ++ (',' :: ['-'])))))) ++
        ';' :: msg.data := by
    simp [mkKmsgLine]
  unfold parse_kmsg
  rw [hdata, splitFirst_append _ hA]
  dsimp only
  rw [splitFirst_append _ (not_mem_natChars (by decide))]
  dsimp only
  rw [splitFirst_append _ (not_mem_natChars (by decide))]
  dsimp only
  rw [splitFirst_append _ (not_mem_natChars (by decide))]
  dsimp only
  rw [parseNat_natChars, parseNat_natChars, parseNat_natChars]

/-! ### Claim C1 -/

/-- C1: for every Entry whose optional fields (timestamp, facility, level,
sequence number) are all populated, serializing with to_kmsg_string and
re-parsing with parse_kmsg yields the same Entry. -/
theorem parse_kmsg_roundtrip (e : Entry)
    (hts : e.timestamp_from_system_start.isSome = true)
    (hf : e.facility.isSome = true) (hl : e.level.isSome = true)
    (hs : e.sequence_num.isSome = true) :
    parse_kmsg (to_kmsg_string e) = .ok e := by
  obtain ⟨ts, f, l, n, msg⟩ := e
  rcases ts with _ | ts; · cases hts
  rcases f with _ | f; · cases hf
  rcases l with _ | l; · cases hl
  rcases n with _ | n; · cases hs
  have hser : to_kmsg_string ⟨some ts, some f, some l, some n, msg⟩ =
      mkKmsgLine (f.toNat * 8 + l.toNat) n ts msg := rfl
  rw [hser, parse_kmsg_mk, decode_priority_pack]

/-- Witness for C1 at the spec's kmsg example entry. -/
theorem parse_kmsg_roundtrip_witness :
    (some (98765 : Nat)).isSome = true ∧
    parse_kmsg (to_kmsg_string ⟨some 98765, some .Kern, some .Info, some 1234,
        "kernel: out of memory"⟩) =
      .ok ⟨some 98765, some .Kern, some .Info, some 1234, "kernel: out of memory"⟩ :=
  ⟨rfl, parse_kmsg_roundtrip ⟨some 98765, some .Kern, some .Info, some 1234,
    "kernel: out of memory"⟩ rfl rfl rfl rfl⟩

/-! ### Claim C2 -/

theorem facility_fromNat_lt {n : Nat} (h : n < 24) :
    ∃ f : LogFacility, LogFacility.fromNat n = some f ∧ LogFacility.toNat f = n := by
  interval_cases n <;> exact ⟨_, rfl, rfl⟩

theorem level_fromNat_lt {n : Nat} (h : n < 8) :
    ∃ l : LogLevel, LogLevel.fromNat n = some l ∧ LogLevel.toNat l = n := by
  interval_cases n <;> exact ⟨_, rfl, rfl⟩

/-- C2: priority decoding takes facility from priority >> 3 and level from
priority & 7; every pair with facility at most 23 and level at most 7
decodes back from facility*8+level; a priority whose facility part exceeds
23 or level part exceeds 7 (the latter cannot happen) has no decoding, and
a kmsg line carrying such a priority fails with a MalformedRecord error. -/
theorem decode_priority_spec :
    (∀ p f l, decode_priority p = some (f, l) →
      LogFacility.toNat f = p >>> 3 ∧ LogLevel.toNat l = p &&& 7) ∧
    (∀ fn ln : Nat, fn ≤ 23 → ln ≤ 7 →
      ∃ f l, decode_priority (fn * 8 + ln) = some (f, l) ∧
        LogFacility.toNat f = fn ∧ LogLevel.toNat l = ln) ∧
    (∀ p, 23 < p >>> 3 ∨ 7 < p &&& 7 → decode_priority p = none) ∧
    (∀ p n t msg, decode_priority p = none →
      parse_kmsg (mkKmsgLine p n t msg) = .error (.malformedRecord (mkKmsgLine p n t msg))) := by
  refine ⟨?_, ?_, ?_, ?_⟩
  · intro p f l h
    unfold decode_priority at h
    split at h
    · next f' l' hfa hlv =>
      have hp := Option.some.inj h
      have hfe : f' = f := congrArg Prod.fst hp
      have hle : l' = l := congrArg Prod.snd hp
      subst hfe; subst hle
      exact ⟨facility_toNat_fromNat hfa, level_toNat_fromNat hlv⟩
    · exact Option.noConfusion h
  · intro fn ln hfn hln
    obtain ⟨f, hf, hfn'⟩ := facility_fromNat_lt (show fn < 24 by omega)
    obtain ⟨l, hl, hln'⟩ := level_fromNat_lt (show ln < 8 by omega)
    refine ⟨f, l, ?_, hfn', hln'⟩
    unfold decode_priority
    rw [show (fn * 8 + ln) >>> 3 = fn by rw [shiftRight_three]; omega,
      show (fn * 8 + ln) &&& 7 = ln by rw [and_seven]; omega, hf, hl]
  · intro p hp
    rcases hp with hp | hp
    · unfold decode_priority
      rw [facility_fromNat_ge (by omega)]
    · exact absurd hp (by have := Nat.and_le_right (n := p) (m := 7); omega)
  · intro p n t msg h
    rw [parse_kmsg_mk, h]

/-- Witness for C2: the spec's facility 0 / level 6 pair decodes back, and
priority 200 (facility part 25) is refused, also through parse_kmsg. -/
theorem decode_priority_spec_witness :
    (∃ f l, decode_priority (0 * 8 + 6) = some (f, l) ∧
      LogFacility.toNat f = 0 ∧ LogLevel.toNat l = 6) ∧
    decode_priority 200 = none ∧
    parse_kmsg (mkKmsgLine 200 1 2 "x") = .error (.malformedRecord (mkKmsgLine 200 1 2 "x")) :=
  ⟨decode_priority_spec.2.1 0 6 (by decide) (by decide),
   decode_priority_spec.2.2.1 200 (Or.inl (by decide)),
   decode_priority_spec.2.2.2 200 1 2 "x"
     (decode_priority_spec.2.2.1 200 (Or.inl (by decide)))⟩

/-! ### Claim C3 -/

/-- C3: klog parsing is best-effort over every input line and never errors
(its result type has no error case). The four cases below are exhaustive:
whatever well-formed decoration is recognised is stripped and populates its
fields, the rest of the line is the message, and absent or malformed
(undecodable) decoration only leaves the corresponding fields absent - with
no priority decoration and no timestamp decoration the entire line becomes
the message of a fields-absent entry; with no priority decoration but a
timestamp decoration only the timestamp is populated; with a decoded
priority, facility and level are populated and the timestamp and message
come from the remainder. -/
theorem parse_klog_best_effort (line : String) :
    ((takePriorityTag line.data = none ∨
        (∃ p r, takePriorityTag line.data = some (p, r) ∧ decode_priority p = none)) →
      takeTimestampTag line.data = none →
      parse_klog line = ⟨none, none, none, none, line⟩) ∧
    (∀ us r, (takePriorityTag line.data = none ∨
        (∃ p r2, takePriorityTag line.data = some (p, r2) ∧ decode_priority p = none)) →
      takeTimestampTag line.data = some (us, r) →
      parse_klog line = ⟨some us, none, none, none, String.mk r⟩) ∧
    (∀ p r f l, takePriorityTag line.data = some (p, r) →
      decode_priority p = some (f, l) → takeTimestampTag r = none →
      parse_klog line = ⟨none, some f, some l, none, String.mk r⟩) ∧
    (∀ p r f l us r2, takePriorityTag line.data = some (p, r) →
      decode_priority p = some (f, l) → takeTimestampTag r = some (us, r2) →
      parse_klog line = ⟨some us, some f, some l, none, String.mk r2⟩) := by
  refine ⟨?_, ?_, ?_, ?_⟩
  · intro h1 h2
    rcases h1 with h1 | ⟨p, r, hp, hd⟩
    · unfold parse_klog klogRest
      rw [h1, h2]
      rfl
    · unfold parse_klog klogRest
      rw [hp]
      dsimp only
      rw [hd, h2]
      rfl
  · intro us r h1 h2
    rcases h1 with h1 | ⟨p, r2, hp, hd⟩
    · unfold parse_klog klogRest
      rw [h1, h2]
      rfl
    · unfold parse_klog klogRest
      rw [hp]
      dsimp only
      rw [hd, h2]
      rfl
  · intro p r f l hp hd ht
    unfold parse_klog klogRest
    rw [hp]
    dsimp only
    rw [hd]
    dsimp only
    rw [ht]
    rfl
  · intro p r f l us r2 hp hd ht
    unfold parse_klog klogRest
    rw [hp]
    dsimp only
    rw [hd]
    dsimp only
    rw [ht]
    rfl

/-- Witness for C3 at one line per case: undecorated, undecodable priority,
timestamp-only, priority with malformed timestamp, and fully decorated. -/
theorem parse_klog_best_effort_witness :
    parse_klog "USB disconnected" = ⟨none, none, none, none, "USB disconnected"⟩ ∧
    parse_klog "<999>boot" = ⟨none, none, none, none, "<999>boot"⟩ ∧
    parse_klog "[5.0] msg" = ⟨some 5000000, none, none, none, "msg"⟩ ∧
    parse_klog "<6>[bad] x" = ⟨none, some .Kern, some .Info, none, "[bad] x"⟩ ∧
    parse_klog "<3>[    5.123456] USB disconnected" =
      ⟨some 5123456, some .Kern, some .Error, none, "USB disconnected"⟩ :=
  ⟨(parse_klog_best_effort "USB disconnected").1 (Or.inl rfl) rfl,
   (parse_klog_best_effort "<999>boot").1 (Or.inr ⟨999, "boot".data, rfl, rfl⟩) rfl,
   (parse_klog_best_effort "[5.0] msg").2.1 5000000 "msg".data (Or.inl rfl) rfl,
   (parse_klog_best_effort "<6>[bad] x").2.2.1 6 "[bad] x".data .Kern .Info rfl rfl rfl,
   (parse_klog_best_effort "<3>[    5.123456] USB disconnected").2.2.2 3
     "[    5.123456] USB disconnected".data .Kern .Error 5123456
     "USB disconnected".data rfl rfl rfl⟩

/-! ### Claim C4 -/

/-- A kmsg line whose header has a separator and four comma fields, some
numeric field of which fails to parse as a number. -/
def kmsgHeaderNonNumeric (line : String) : Prop :=
  ∃ header msgChars prioChars r1 seqChars r2 tsChars flagChars,
    splitFirst ';' line.data = some (header, msgChars) ∧
    splitFirst ',' header = some (prioChars, r1) ∧
    splitFirst ',' r1 = some (seqChars, r2) ∧
    splitFirst ',' r2 = some (tsChars, flagChars) ∧
    (parseNat prioChars = none ∨ parseNat seqChars = none ∨ parseNat tsChars = none)

/-- C4: a kmsg line that lacks the `;` separator, or whose header carries a
non-numeric numeric field, fails with a MalformedRecord error. -/
theorem parse_kmsg_malformed (line : String)
    (h : ';' ∉ line.data ∨ kmsgHeaderNonNumeric line) :
    parse_kmsg line = .error (.malformedRecord line) := by
  rcases h with h | h
  · unfold parse_kmsg
    rw [splitFirst_eq_none h]
  · obtain ⟨hd, mc, pc, r1, sc, r2, tc, fc, h1, h2, h3, h4, h5⟩ := h
    unfold parse_kmsg
    rw [h1]
    dsimp only
    rw [h2]
    dsimp only
    rw [h3]
    dsimp only
    rw [h4]
    dsimp only
    rcases h5 with h5 | h5 | h5 <;> rw [h5] <;> cases parseNat pc <;>
      cases parseNat sc <;> cases parseNat tc <;> rfl

/-- Witness for C4 at a line with no separator. -/
theorem parse_kmsg_malformed_witness :
    parse_kmsg "kernel out of memory" = .error (.malformedRecord "kernel out of memory") :=
  parse_kmsg_malformed "kernel out of memory" (Or.inl (by decide))

/-! ### Claim C5 -/

/-- C5: entries produced by either parse operation have facility and level
either both present or both absent. -/
theorem parse_faclev_invariant (s t : String) :
    (∀ e, parse_kmsg s = .ok e → e.facility.isSome = e.level.isSome) ∧
    (parse_klog t).facility.isSome = (parse_klog t).level.isSome := by
  constructor
  · intro e h
    unfold parse_kmsg at h
    repeat' split at h
    all_goals first
      | exact Except.noConfusion h
      | (injection h with h'; subst h'; rfl)
  · unfold parse_klog klogRest
    repeat' split
    all_goals rfl

/-- Witness for C5 at the spec's kmsg example line. -/
theorem parse_faclev_invariant_witness :
    ((⟨some 98765, some .Kern, some .Info, some 1234,
        "kernel: out of memory"⟩ : Entry)).facility.isSome =
      ((⟨some 98765, some .Kern, some .Info, some 1234,
        "kernel: out of memory"⟩ : Entry)).level.isSome :=
  (parse_faclev_invariant "6,1234,98765,-;kernel: out of memory" "<3>x").1
    ⟨some 98765, some .Kern, some .Info, some 1234, "kernel: out of memory"⟩ rfl

/-! ### Claim C6 -/

/-- C6: whenever parse_kmsg succeeds, the returned Entry has timestamp,
facility, level and sequence number all populated. -/
theorem parse_kmsg_all_fields (s : String) (e : Entry) (h : parse_kmsg s = .ok e) :
    e.timestamp_from_system_start.isSome = true ∧ e.facility.isSome = true ∧
      e.level.isSome = true ∧ e.sequence_num.isSome = true := by
  unfold parse_kmsg at h
  repeat' split at h
  all_goals first
    | exact Except.noConfusion h
    | (injection h with h'; subst h'; exact ⟨rfl, rfl, rfl, rfl⟩)

/-- Witness for C6 at the spec's kmsg example line. -/
theorem parse_kmsg_all_fields_witness :
    ((⟨some 98765, some .Kern, some .Info, some 1234,
        "kernel: out of memory"⟩ : Entry)).timestamp_from_system_start.isSome = true ∧
    ((⟨some 98765, some .Kern, some .Info, some 1234,
        "kernel: out of memory"⟩ : Entry)).facility.isSome = true ∧
    ((⟨some 98765, some .Kern, some .Info, some 1234,
        "kernel: out of memory"⟩ : Entry)).level.isSome = true ∧
    ((⟨some 98765, some .Kern, some .Info, some 1234,
        "kernel: out of memory"⟩ : Entry)).sequence_num.isSome = true :=
  parse_kmsg_all_fields "6,1234,98765,-;kernel: out of memory"
    ⟨some 98765, some .Kern, some .Info, some 1234, "kernel: out of memory"⟩ rfl

/-! ### Claim C9 -/

/-- C9: both serializers succeed on every Entry, whatever subset of the
optional fields is present; string formatting has no failure path. -/
theorem serializers_total (e : Entry) :
    (Entry.to_kmsg_str e).isOk = true ∧ (Entry.to_klog_str e).isOk = true :=
  ⟨rfl, rfl⟩

/-! ### Evaluation lemmas for the klog codec -/

theorem natChars_length_le6 {m : Nat} (hm : m < 1000000) : (natChars m).length ≤ 6 := by
  unfold natChars
  split
  · simp
  · next h =>
    rw [List.length_map, List.length_reverse]
    by_contra hlen
    push_neg at hlen
    have h1 := Nat.base_pow_length_digits_le 10 m (by norm_num) h
    have h2 : (10 : Nat) ^ 7 ≤ 10 ^ (Nat.digits 10 m).length :=
      Nat.pow_le_pow_right (by norm_num) (by omega)
    have h3 : (10 : Nat) ^ 7 = 10000000 := by norm_num
    omega

theorem pad6_all_digits {c : Char} {m : Nat} (h : c ∈ pad6 m) : c.isDigit = true := by
  rcases List.mem_append.mp h with h | h
  · rw [List.eq_of_mem_replicate h]; decide
  · exact natChars_all_digits h

theorem pad6_ne_nil (m : Nat) : pad6 m ≠ [] := by
  unfold pad6
  intro h
  exact natChars_ne_nil m (List.append_eq_nil.mp h).2

theorem pad6_length {m : Nat} (hm : m < 1000000) : (pad6 m).length = 6 := by
  unfold pad6
  rw [List.length_append, List.length_replicate]
  have := natChars_length_le6 hm
  omega

theorem valDigits_replicate_zero (k : Nat) (cs : List Char) :
    valDigits (List.replicate k '0' ++ cs) = valDigits cs := by
  induction k with
  | zero => rfl
  | succ k ih =>
    rw [List.replicate_succ, List.cons_append]
    have hz : valDigits ('0' :: (List.replicate k '0' ++ cs)) =
        valDigits (List.replicate k '0' ++ cs) := rfl
    rw [hz, ih]

theorem fracMicros_pad6 {m : Nat} (hm : m < 1000000) : fracMicros (pad6 m) = m := by
  unfold fracMicros padTo6
  rw [pad6_length hm, List.take_of_length_le (pad6_length hm).le]
  show valDigits (pad6 m ++ List.replicate 0 '0') = m
  rw [List.replicate, List.append_nil]
  unfold pad6
  rw [valDigits_replicate_zero, valDigits_natChars]

theorem takePriorityTag_mk (p : Nat) (rest : List Char) :
    takePriorityTag ('<' :: (natChars p ++ ('>' :: rest))) = some (p, rest) := by
  obtain ⟨d, ds, hds⟩ := List.exists_cons_of_ne_nil (natChars_ne_nil p)
  have htake : (natChars p ++ '>' :: rest).takeWhile Char.isDigit = d :: ds :=
    (takeWhile_append_all rest (fun a ha => natChars_all_digits ha) (by decide)).trans hds
  have hdrop : (natChars p ++ '>' :: rest).dropWhile Char.isDigit = '>' :: rest :=
    dropWhile_append_all rest (fun a ha => natChars_all_digits ha) (by decide)
  simp only [takePriorityTag, htake, hdrop]
  simp only [if_pos]
  rw [← hds, valDigits_natChars]

theorem takePriorityTag_cons_ne {c : Char} (cs : List Char) (hc : ¬ c = '<') :
    takePriorityTag (c :: cs) = none := by
  simp [takePriorityTag, hc]

theorem takeTimestampTag_cons_ne {c : Char} (cs : List Char) (hc : ¬ c = '[') :
    takeTimestampTag (c :: cs) = none := by
  simp [takeTimestampTag, hc]

theorem takeTimestampTag_mk (us : Nat) (rest : List Char) :
    takeTimestampTag ('[' :: (secsChars us ++ (']' :: (' ' :: rest)))) = some (us, rest) := by
  have hb : us % 1000000 < 1000000 := Nat.mod_lt _ (by norm_num)
  have hshape : secsChars us ++ (']' :: (' ' :: rest)) =
      natChars (us / 1000000) ++ ('.' :: (pad6 (us % 1000000) ++ (']' :: (' ' :: rest)))) := by
    simp [secsChars, List.append_assoc]
  obtain ⟨d, ds, hds⟩ := List.exists_cons_of_ne_nil (natChars_ne_nil (us / 1000000))
  obtain ⟨g, gs, hgs⟩ := List.exists_cons_of_ne_nil (pad6_ne_nil (us % 1000000))
  have hd : d.isDigit = true := natChars_all_digits (hds ▸ List.mem_cons_self d ds)
  have hdne : ¬ d = ' ' := fun he => by rw [he] at hd; cases hd
  have hnospace :
      (natChars (us / 1000000) ++
          ('.' :: (pad6 (us % 1000000) ++ (']' :: (' ' :: rest))))).dropWhile
        (fun x => x = ' ') =
      natChars (us / 1000000) ++ ('.' :: (pad6 (us % 1000000) ++ (']' :: (' ' :: rest)))) := by
    rw [hds, List.cons_append, List.dropWhile_cons]
    simp [hdne]
  have htake1 :
      (natChars (us / 1000000) ++
          ('.' :: (pad6 (us % 1000000) ++ (']' :: (' ' :: rest))))).takeWhile Char.isDigit =
        d :: ds :=
    (takeWhile_append_all _ (fun a ha => natChars_all_digits ha) (by decide)).trans hds
  have hdrop1 :
      (natChars (us / 1000000) ++
          ('.' :: (pad6 (us % 1000000) ++ (']' :: (' ' :: rest))))).dropWhile Char.isDigit =
        '.' :: (pad6 (us % 1000000) ++ (']' :: (' ' :: rest))) :=
    dropWhile_append_all _ (fun a ha => natChars_all_digits ha) (by decide)
  have htake2 :
      (pad6 (us % 1000000) ++ (']' :: (' ' :: rest))).takeWhile Char.isDigit = g :: gs :=
    (takeWhile_append_all _ (fun a ha => pad6_all_digits ha) (by decide)).trans hgs
  have hdrop2 :
      (pad6 (us % 1000000) ++ (']' :: (' ' :: rest))).dropWhile Char.isDigit =
        ']' :: (' ' :: rest) :=
    dropWhile_append_all _ (fun a ha => pad6_all_digits ha) (by decide)
  simp only [takeTimestampTag, hshape, hnospace, htake1, hdrop1, htake2, hdrop2]
  simp only [if_pos]
  rw [← hds, ← hgs, valDigits_natChars, fracMicros_pad6 hb]
  have hdm : us / 1000000 * 1000000 + us % 1000000 = us := by omega
  rw [hdm]

/-! ### Claim C7 -/

/-- C7 as stated is false: an Entry with facility present but level absent
(so no priority can be packed), or an undecorated message that itself looks
decorated, does not round-trip through the klog dialect. At the explicit
entry below the reparsed facility differs from the original. -/
theorem klog_roundtrip_counterexample :
    ¬ ((parse_klog (to_klog_string ⟨none, some .Kern, none, none, "boot"⟩)).facility =
        ((⟨none, some .Kern, none, none, "boot"⟩ : Entry)).facility) := by
  decide

/-- C7 amended: for every Entry whose facility and level are both present or
both absent, and whose message does not itself begin with a well-formed
priority decoration (when facility and timestamp are absent) nor with a
well-formed timestamp decoration (when the timestamp is absent), parsing
to_klog_string(e) with parse_klog preserves message, level, facility, and
the timestamp exactly (the textual form carries full microsecond
precision). -/
theorem to_klog_roundtrip (e : Entry)
    (hinv : e.facility.isSome = e.level.isSome)
    (hm1 : e.facility = none → e.timestamp_from_system_start = none →
      takePriorityTag e.message.data = none)
    (hm2 : e.timestamp_from_system_start = none → takeTimestampTag e.message.data = none) :
    (parse_klog (to_klog_string e)).message = e.message ∧
      (parse_klog (to_klog_string e)).level = e.level ∧
      (parse_klog (to_klog_string e)).facility = e.facility ∧
      (parse_klog (to_klog_string e)).timestamp_from_system_start =
        e.timestamp_from_system_start := by
  obtain ⟨ts, fac, lev, sq, msg⟩ := e
  rcases fac with _ | f
  · rcases lev with _ | l
    · rcases ts with _ | us
      · have hp := hm1 rfl rfl
        have ht := hm2 rfl
        have hser : to_klog_string ⟨none, none, none, sq, msg⟩ = String.mk msg.data := by
          simp [to_klog_string, Entry.to_faclev]
        rw [hser]
        unfold parse_klog klogRest
        rw [show (String.mk msg.data).data = msg.data from rfl, hp, ht]
        exact ⟨rfl, rfl, rfl, rfl⟩
      · have hser : (to_klog_string ⟨some us, none, none, sq, msg⟩).data =
            '[' :: (secsChars us ++ (']' :: (' ' :: msg.data))) := by
          simp [to_klog_string, Entry.to_faclev, List.append_assoc]
        unfold parse_klog klogRest
        rw [hser, takePriorityTag_cons_ne _ (by decide), takeTimestampTag_mk]
        exact ⟨rfl, rfl, rfl, rfl⟩
    · simp at hinv
  · rcases lev with _ | l
    · simp at hinv
    · rcases ts with _ | us
      · have ht := hm2 rfl
        have hser : (to_klog_string ⟨none, some f, some l, sq, msg⟩).data =
            '<' :: (natChars (f.toNat * 8 + l.toNat) ++ ('>' :: msg.data)) := by
          simp [to_klog_string, Entry.to_faclev, List.append_assoc]
        unfold parse_klog klogRest
        rw [hser, takePriorityTag_mk]
        dsimp only
        rw [decode_priority_pack]
        dsimp only
        rw [ht]
        exact ⟨rfl, rfl, rfl, rfl⟩
      · have hser : (to_klog_string ⟨some us, some f, some l, sq, msg⟩).data =
            '<' :: (natChars (f.toNat * 8 + l.toNat) ++ ('>' ::
              ('[' :: (secsChars us ++ (']' :: (' ' :: msg.data)))))) := by
          simp [to_klog_string, Entry.to_faclev, List.append_assoc]
        unfold parse_klog klogRest
        rw [hser, takePriorityTag_mk]
        dsimp only
        rw [decode_priority_pack]
        dsimp only
        rw [takeTimestampTag_mk]
        exact ⟨rfl, rfl, rfl, rfl⟩

/-- Witness for the amended C7 at the spec's klog example entry. -/
theorem to_klog_roundtrip_witness :
    (parse_klog (to_klog_string (⟨some 5123456, some .Kern, some .Error, none,
        "USB disconnected"⟩ : Entry))).message =
      ((⟨some 5123456, some .Kern, some .Error, none, "USB disconnected"⟩ : Entry)).message ∧
    (parse_klog (to_klog_string (⟨some 5123456, some .Kern, some .Error, none,
        "USB disconnected"⟩ : Entry))).level =
      ((⟨some 5123456, some .Kern, some .Error, none, "USB disconnected"⟩ : Entry)).level ∧
    (parse_klog (to_klog_string (⟨some 5123456, some .Kern, some .Error, none,
        "USB disconnected"⟩ : Entry))).facility =
      ((⟨some 5123456, some .Kern, some .Error, none, "USB disconnected"⟩ : Entry)).facility ∧
    (parse_klog (to_klog_string (⟨some 5123456, some .Kern, some .Error, none,
        "USB disconnected"⟩ : Entry))).timestamp_from_system_start =
      ((⟨some 5123456, some .Kern, some .Error, none,
        "USB disconnected"⟩ : Entry)).timestamp_from_system_start :=
  to_klog_roundtrip ⟨some 5123456, some .Kern, some .Error, none, "USB disconnected"⟩
    (by decide) (by decide) (by decide)

/-! ### Claim C8 -/

theorem unable_ne_hint (ctx : String) (e : RMesgError) :
    ("Unable to get " ++ ctx ++ ": " ++ fmtError e) ≠ hintLine := by
  intro h
  have hU : ("Unable to get " ++ ctx ++ ": " ++ fmtError e).data.head? = some 'U' := rfl
  have hH : hintLine.data.head? = some '\n' := rfl
  rw [h, hH] at hU
  exact absurd (Option.some.inj hU) (by decide)

theorem hint_in_errReport (ctx : String) (e : RMesgError) :
    CliLine.err hintLine ∈ errReport ctx e ↔ e.isOperationNotPermitted = true := by
  unfold errReport
  constructor
  · intro h
    rcases List.mem_cons.mp h with h | h
    · exact absurd (CliLine.err.inj h).symm (unable_ne_hint ctx e)
    · by_cases hop : e.isOperationNotPermitted = true
      · exact hop
      · rw [if_neg hop] at h
        cases h
  · intro h
    rw [if_pos h]
    exact List.mem_cons.mpr (Or.inr (List.mem_cons_self _ _))

theorem hint_in_followRun (items : List (Except RMesgError Entry)) :
    CliLine.err hintLine ∈ followRun items ↔
      ∃ e, firstFailure items = some e ∧ e.isOperationNotPermitted = true := by
  induction items with
  | nil => simp [followRun, firstFailure]
  | cons x rest ih =>
    cases x with
    | ok en =>
      simp only [followRun, firstFailure, List.mem_cons]
      constructor
      · intro h
        rcases h with h | h
        · exact CliLine.noConfusion h
        · exact ih.mp h
      · intro h
        exact Or.inr (ih.mpr h)
    | error e =>
      simp only [followRun, firstFailure]
      rw [hint_in_errReport]
      constructor
      · intro h
        exact ⟨e, rfl, h⟩
      · rintro ⟨e', he', hop⟩
        cases Option.some.inj he'
        exact hop

/-- C8: an invocation of the CLI prints the retry-with-elevated-privilege
hint if and only if the core operation it invoked (logs_stream when
following, logs_raw when raw, log_entries otherwise) failed with the
permission-denied error kind. -/
theorem cli_hint_iff_not_permitted (opts : Options)
    (streamRes : Except RMesgError (List (Except RMesgError Entry)))
    (rawRes : Except RMesgError String) (entriesRes : Except RMesgError (List Entry)) :
    CliLine.err hintLine ∈ mainRun opts streamRes rawRes entriesRes ↔
      ∃ e, encounteredError opts streamRes rawRes entriesRes = some e ∧
        e.isOperationNotPermitted = true := by
  unfold mainRun encounteredError nofollow
  cases hf : opts.follow with
  | true =>
    cases streamRes with
    | error e => simp [hint_in_errReport]
    | ok items => simp [hint_in_followRun]
  | false =>
    cases hr : opts.raw with
    | true =>
      cases rawRes with
      | ok s => simp [errorOf]
      | error e => simp [errorOf, hint_in_errReport]
    | false =>
      cases entriesRes with
      | ok l => simp [errorOf]
      | error e => simp [errorOf, hint_in_errReport]

/-! ### Claim C10 -/

theorem scanArgs_spec (args : List String) (m m' : ArgMatches)
    (h : scanArgs m args = some m') :
    (m'.follow = true ↔ (m.follow = true ∨ "-f" ∈ args)) ∧
    (m'.clear = true ↔ (m.clear = true ∨ "-c" ∈ args)) ∧
    (m'.raw = true ↔ (m.raw = true ∨ "-r" ∈ args)) ∧
    ("-b" ∈ args → ∃ v, v ∈ backendValues ∧ v ∈ args ∧ m'.backend = some v) ∧
    ("-b" ∉ args → m'.backend = m.backend) := by
  induction m, args using scanArgs.induct generalizing m' with
  | case1 m =>
    have hm : (some m : Option ArgMatches) = some m' := h
    cases Option.some.inj hm
    simp
  | case2 m rest ih =>
    have h' : scanArgs { m with follow := true } rest = some m' := h
    obtain ⟨hf, hc, hr, hb1, hb2⟩ := ih m' h'
    refine ⟨?_, ?_, ?_, ?_, ?_⟩
    · rw [hf]; simp [List.mem_cons]
    · rw [hc]; simp [List.mem_cons, show ¬ ("-c" : String) = "-f" from by decide]
    · rw [hr]; simp [List.mem_cons, show ¬ ("-r" : String) = "-f" from by decide]
    · intro hmem
      rcases List.mem_cons.mp hmem with hmem | hmem
      · exact absurd hmem (by decide)
      · obtain ⟨v, hv1, hv2, hv3⟩ := hb1 hmem
        exact ⟨v, hv1, List.mem_cons_of_mem _ hv2, hv3⟩
    · intro hnb
      exact hb2 (fun hmem => hnb (List.mem_cons_of_mem _ hmem))
  | case3 m rest ih =>
    have h' : scanArgs { m with clear := true } rest = some m' := h
    obtain ⟨hf, hc, hr, hb1, hb2⟩ := ih m' h'
    refine ⟨?_, ?_, ?_, ?_, ?_⟩
    · rw [hf]; simp [List.mem_cons, show ¬ ("-f" : String) = "-c" from by decide]
    · rw [hc]; simp [List.mem_cons]
    · rw [hr]; simp [List.mem_cons, show ¬ ("-r" : String) = "-c" from by decide]
    · intro hmem
      rcases List.mem_cons.mp hmem with hmem | hmem
      · exact absurd hmem (by decide)
      · obtain ⟨v, hv1, hv2, hv3⟩ := hb1 hmem
        exact ⟨v, hv1, List.mem_cons_of_mem _ hv2, hv3⟩
    · intro hnb
      exact hb2 (fun hmem => hnb (List.mem_cons_of_mem _ hmem))
  | case4 m rest ih =>
    have h' : scanArgs { m with raw := true } rest = some m' := h
    obtain ⟨hf, hc, hr, hb1, hb2⟩ := ih m' h'
    refine ⟨?_, ?_, ?_, ?_, ?_⟩
    · rw [hf]; simp [List.mem_cons, show ¬ ("-f" : String) = "-r" from by decide]
    · rw [hc]; simp [List.mem_cons, show ¬ ("-c" : String) = "-r" from by decide]
    · rw [hr]; simp [List.mem_cons]
    · intro hmem
      rcases List.mem_cons.mp hmem with hmem | hmem
      · exact absurd hmem (by decide)
      · obtain ⟨v, hv1, hv2, hv3⟩ := hb1 hmem
        exact ⟨v, hv1, List.mem_cons_of_mem _ hv2, hv3⟩
    · intro hnb
      exact hb2 (fun hmem => hnb (List.mem_cons_of_mem _ hmem))
  | case5 m v rest hv ih =>
    have h' : scanArgs { m with backend := some v } rest = some m' := by
      rw [show scanArgs m ("-b" :: v :: rest) =
        (if v ∈ backendValues then scanArgs { m with backend := some v } rest else none)
        from rfl, if_pos hv] at h
      exact h
    obtain ⟨hf, hc, hr, hb1, hb2⟩ := ih m' h'
    have hvne : ¬ ("-f" : String) = v ∧ ¬ ("-c" : String) = v ∧ ¬ ("-r" : String) = v ∧
        ¬ ("-b" : String) = v := by
      rcases (by simpa [backendValues] using hv : v = "klogctl" ∨ v = "devkmsg") with rfl | rfl <;>
        refine ⟨by decide, by decide, by decide, by decide⟩
    refine ⟨?_, ?_, ?_, ?_, ?_⟩
    · rw [hf]
      simp [List.mem_cons, show ¬ ("-f" : String) = "-b" from by decide, hvne.1]
    · rw [hc]
      simp [List.mem_cons, show ¬ ("-c" : String) = "-b" from by decide, hvne.2.1]
    · rw [hr]
      simp [List.mem_cons, show ¬ ("-r" : String) = "-b" from by decide, hvne.2.2.1]
    · intro _
      by_cases hbr : "-b" ∈ rest
      · obtain ⟨w, hw1, hw2, hw3⟩ := hb1 hbr
        exact ⟨w, hw1, List.mem_cons_of_mem _ (List.mem_cons_of_mem _ hw2), hw3⟩
      · refine ⟨v, hv, List.mem_cons_of_mem _ (List.mem_cons_self _ _), ?_⟩
        rw [hb2 hbr]
    · intro hnb
      exact absurd (List.mem_cons_self _ _) hnb
  | case6 m v rest hv =>
    rw [show scanArgs m ("-b" :: v :: rest) =
      (if v ∈ backendValues then scanArgs { m with backend := some v } rest else none)
      from rfl, if_neg hv] at h
    exact Option.noConfusion h
  | case7 t m hn1 hn2 hn3 hn4 hn5 =>
    rw [scanArgs.eq_def] at h
    split at h
    · exact absurd rfl (fun hh => hn1 hh)
    · exact absurd rfl (fun hh => hn2 _ hh)
    · exact absurd rfl (fun hh => hn3 _ hh)
    · exact absurd rfl (fun hh => hn4 _ hh)
    · exact absurd rfl (fun hh => hn5 _ _ hh)
    · exact Option.noConfusion h

/-- C10: whenever parse_args succeeds, follow, clear and raw are true
exactly when their flag (-f, -c, -r) appears among the argument tokens; an
absent -b option yields Backend.Default, and the values "klogctl" and
"devkmsg" (the only ones the CLI accepts) yield Backend.KLogCtl and
Backend.DevKMsg. -/
theorem parse_args_spec (args : List String) (opts : Options)
    (h : parse_args args = some opts) :
    (opts.follow = true ↔ "-f" ∈ args) ∧
    (opts.clear = true ↔ "-c" ∈ args) ∧
    (opts.raw = true ↔ "-r" ∈ args) ∧
    (opts.backend = Backend.Default ↔ "-b" ∉ args) ∧
    (opts.backend = Backend.KLogCtl → "klogctl" ∈ args) ∧
    (opts.backend = Backend.DevKMsg → "devkmsg" ∈ args) ∧
    backendMap none = some Backend.Default ∧
    backendMap (some "klogctl") = some Backend.KLogCtl ∧
    backendMap (some "devkmsg") = some Backend.DevKMsg := by
  unfold parse_args at h
  cases hscan : scanArgs ⟨false, false, false, none⟩ args with
  | none => rw [hscan] at h; cases h
  | some m =>
    rw [hscan] at h
    dsimp only at h
    obtain ⟨hf, hc, hr, hb1, hb2⟩ := scanArgs_spec args _ m hscan
    cases hbm : backendMap m.backend with
    | none => rw [hbm] at h; cases h
    | some b =>
      rw [hbm] at h
      cases Option.some.inj h
      refine ⟨?_, ?_, ?_, ?_, ?_, ?_, rfl, rfl, rfl⟩
      · simpa using hf
      · simpa using hc
      · simpa using hr
      · constructor
        · intro hd hmem
          obtain ⟨v, hv, hva, hvb⟩ := hb1 hmem
          rw [hvb] at hbm
          have hd' : b = Backend.Default := hd
          rcases (by simpa [backendValues] using hv : v = "klogctl" ∨ v = "devkmsg") with
            rfl | rfl
          · rw [show backendMap (some "klogctl") = some Backend.KLogCtl from rfl] at hbm
            rw [hd'] at hbm
            exact Backend.noConfusion (Option.some.inj hbm)
          · rw [show backendMap (some "devkmsg") = some Backend.DevKMsg from rfl] at hbm
            rw [hd'] at hbm
            exact Backend.noConfusion (Option.some.inj hbm)
        · intro hnb
          have hmb := hb2 hnb
          rw [hmb] at hbm
          exact (Option.some.inj hbm).symm
      · intro hk
        have hk' : b = Backend.KLogCtl := hk
        by_cases hmem : "-b" ∈ args
        · obtain ⟨v, hv, hva, hvb⟩ := hb1 hmem
          rw [hvb] at hbm
          rcases (by simpa [backendValues] using hv : v = "klogctl" ∨ v = "devkmsg") with
            rfl | rfl
          · exact hva
          · rw [show backendMap (some "devkmsg") = some Backend.DevKMsg from rfl, hk'] at hbm
            exact Backend.noConfusion (Option.some.inj hbm)
        · rw [hb2 hmem] at hbm
          rw [show backendMap none = some Backend.Default from rfl, hk'] at hbm
          exact Backend.noConfusion (Option.some.inj hbm)
      · intro hk
        have hk' : b = Backend.DevKMsg := hk
        by_cases hmem : "-b" ∈ args
        · obtain ⟨v, hv, hva, hvb⟩ := hb1 hmem
          rw [hvb] at hbm
          rcases (by simpa [backendValues] using hv : v = "klogctl" ∨ v = "devkmsg") with
            rfl | rfl
          · rw [show backendMap (some "klogctl") = some Backend.KLogCtl from rfl, hk'] at hbm
            exact Backend.noConfusion (Option.some.inj hbm)
          · exact hva
        · rw [hb2 hmem] at hbm
          rw [show backendMap none = some Backend.Default from rfl, hk'] at hbm
          exact Backend.noConfusion (Option.some.inj hbm)

/-- Witness for C10 at the argument vector -f -b klogctl. -/
theorem parse_args_spec_witness :
    ((⟨true, false, false, Backend.KLogCtl⟩ : Options)).follow = true ↔
      "-f" ∈ (["-f", "-b", "klogctl"] : List String) :=
  (parse_args_spec ["-f", "-b", "klogctl"] ⟨true, false, false, Backend.KLogCtl⟩ rfl).1

end Rmesg
